import Mathlib

/-!
Verification of the sharded-counter aggregation core against its design
specification.

The available source is the trigger-wiring module
`src/firestore-counter/functions/src/index.ts`.  Its four exported cloud
functions are embedded shallowly below as pure functions from their inputs
(and from the results of the calls into the imported controller/worker
modules) to a trace of collaborator calls plus a return value.  The
controller and worker modules themselves (`controller.ts`, `worker.ts`) are
imported by `index.ts` but are not part of the available source; the
operations of theirs that the properties need (the Aggregator and the worker
run guard/loop) are modelled from the specification and carry a doc comment
saying so.
-/

namespace FirestoreCounter

/-- Key range over the shard key space, written `[start, end)` in the
specification.  `index.ts` always passes the full range with both bounds
equal to the empty string; an empty `end` bound means unbounded above. -/
structure Slice where
  start : String
  «end» : String
deriving DecidableEq, Repr

/-- Status codes returned by `ShardedCounterController.aggregateOnce`; the
three non-`OK` values are the ones `controllerCore` tests for in
`index.ts` lines 45-48, and `OK` is the remaining value of the closed
enumeration given in the specification. -/
inductive ControllerStatus where
  | OK
  | WORKERS_RUNNING
  | TOO_MANY_SHARDS
  | FAILURE
deriving DecidableEq, Repr

/-- Status component of the Aggregator result, from section 4.1 of the
specification.  `FAILURE` (transaction retries exhausted) has no
counterpart in this sequential embedding, where transactions cannot
conflict. -/
inductive AggregateStatus where
  | DRAINED
  | AGGREGATED
  | TOO_MANY_SHARDS
  | FAILURE
deriving DecidableEq, Repr

/-- One shard record: an immutable increment contribution, identified by its
document key and carrying a numeric delta. -/
structure Shard where
  key : String
  delta : Int
deriving DecidableEq, Repr

/-- One worker descriptor document: partition slice, last-heartbeat
timestamp, shards-processed count and the desired-stop flag of section 3 of
the specification. -/
structure WorkerDescriptor where
  slice : Slice
  timestamp : Nat
  stats : Nat
  stop : Bool
deriving DecidableEq, Repr

/-- The store state a counter instance owns: the aggregate state document
(total and historical consumed-shards count), the outstanding shard records
and the worker descriptor documents keyed by their document id. -/
structure CounterState where
  total : Int
  shardsCount : Nat
  shards : List Shard
  workers : List (String × WorkerDescriptor)
deriving DecidableEq, Repr

/-- The counter state everything starts from: empty store, zero total. -/
def emptyCounterState : CounterState :=
  { total := 0, shardsCount := 0, shards := [], workers := [] }

/-- Module-level constant of `index.ts`. -/
def SHARDS_COLLECTION_ID : String := "_counter_shards_"

/-- Module-level constant of `index.ts`. -/
def WORKERS_COLLECTION_ID : String := "_counter_workers_"

/-- The lazily initialised module-level PubSub client of `index.ts`
(`let pubsub;`).  The id only serves to distinguish client instances, so
that reuse versus re-creation is observable in the embedding. -/
structure PubSubClient where
  id : Nat
deriving DecidableEq, Repr

/-- Observable collaborator calls an entry point handler can make, in the
order the handler makes them. -/
inductive Call where
  | newController (metadocPath : String) (shardCollectionId : String)
  | aggregateOnce (range : Slice) (limit : Nat)
  | rescheduleWorkers
  | aggregateContinuously (range : Slice) (limit : Nat) (budget : Nat)
  | newWorker (snapshotId : String) (shardCollectionId : String)
  | workerRun (snapshotId : String)
  | publish (client : PubSubClient) (topic : String) (message : String)
deriving DecidableEq, Repr

/-- Shallow embedding of the `controllerCore` handler body, `index.ts`
lines 37-54.  The handler constructs a controller on the
`INTERNAL_STATE_PATH` metadoc, awaits `aggregateOnce` over the full key
range with limit 200, awaits `rescheduleWorkers` when the returned status is
`WORKERS_RUNNING`, `TOO_MANY_SHARDS` or `FAILURE`, and returns `null`
(embedded as `none`).  The status returned by `aggregateOnce` is a
parameter, since the aggregation itself happens in the imported controller
module. -/
def controllerCoreHandler (internalStatePath : String) (status : ControllerStatus) :
    List Call × Option Unit :=
  let calls := [Call.newController internalStatePath SHARDS_COLLECTION_ID,
                Call.aggregateOnce ⟨"", ""⟩ 200]
  if status = ControllerStatus.WORKERS_RUNNING ∨
      status = ControllerStatus.TOO_MANY_SHARDS ∨
      status = ControllerStatus.FAILURE then
    (calls ++ [Call.rescheduleWorkers], none)
  else
    (calls, none)

/-- An HTTP response as produced by `res.status(code).send(body)`. -/
structure HttpResponse where
  status : Nat
  body : String
deriving DecidableEq, Repr

/-- Result of one run of the HTTPS `controller` handler: the counter state it
leaves behind, the module-level pubsub client after the run, the collaborator
calls it made and the HTTP response it sent. -/
structure ManualTriggerResult where
  counter : CounterState
  pubsub : Option PubSubClient
  calls : List Call
  response : HttpResponse
deriving DecidableEq, Repr

/-- Shallow embedding of the backwards compatible HTTPS `controller`
function, `index.ts` lines 59-67.  `pubsub` is the module-level client
variable before the request; `freshClient` stands for the `new PubSub()` the
handler constructs when that variable is still unset; `extInstanceId` is
`process.env.EXT_INSTANCE_ID`.  The handler publishes
`Buffer.from(JSON.stringify(\x7b\x7d))`, that is the two-character message
"\x7b\x7d", to the topic named by `extInstanceId` and answers
`res.status(200).send("Ok")`.  The counter state is threaded through
unchanged because the handler body never touches the store. -/
def controllerHandler (counter : CounterState) (pubsub : Option PubSubClient)
    (extInstanceId : String) (freshClient : PubSubClient) : ManualTriggerResult :=
  let client := match pubsub with
    | none => freshClient
    | some c => c
  { counter := counter
    pubsub := some client
    calls := [Call.publish client extInstanceId "\x7b\x7d"]
    response := { status := 200, body := "Ok" } }

/-- A document snapshot as seen by a firestore `onWrite` trigger: the
`exists` flag, the document id and the decoded worker descriptor when the
document exists. -/
structure DocumentSnapshot where
  «exists» : Bool
  id : String
  descriptor : Option WorkerDescriptor
deriving DecidableEq, Repr

/-- The `change` argument of a firestore `onWrite` trigger on a worker
descriptor document. -/
structure Change where
  before : DocumentSnapshot
  after : DocumentSnapshot
deriving DecidableEq, Repr

/-- Shallow embedding of the `worker` entry point body, `index.ts`
lines 77-87: `if (!change.after.exists) return;` and otherwise construct a
`ShardedCounterWorker` on the after-snapshot and await its run. -/
def workerHandler (change : Change) : List Call :=
  if change.after.«exists» = false then []
  else [Call.newWorker change.after.id SHARDS_COLLECTION_ID,
        Call.workerRun change.after.id]

/-- A snapshot of a shard document for the `onWrite` trigger. -/
structure ShardSnapshot where
  «exists» : Bool
  data : Option Shard
deriving DecidableEq, Repr

/-- The `change` argument of the per-shard-write trigger: a create has no
before, a delete has no after. -/
structure ShardChange where
  before : ShardSnapshot
  after : ShardSnapshot
deriving DecidableEq, Repr

/-- The `context` argument of a firestore trigger: the matched path
parameters, such as `collection` and `shardId`. -/
structure EventContext where
  params : List (String × String)
deriving DecidableEq, Repr

/-- Shallow embedding of the `onWrite` entry point body, `index.ts`
lines 94-103.  Whatever the change and context are, the handler constructs a
controller on the `INTERNAL_STATE_PATH` metadoc and awaits
`aggregateContinuously` over the full key range with limit 200 and budget
60000. -/
def onWriteHandler (internalStatePath : String) (_change : ShardChange)
    (_context : EventContext) : List Call :=
  [Call.newController internalStatePath SHARDS_COLLECTION_ID,
   Call.aggregateContinuously ⟨"", ""⟩ 200 60000]

/-- The role each exported entry point of `index.ts` plays at the
collaborator interface of section 6 of the specification. -/
inductive EntryPointKind where
  | periodicTick
  | perShardWrite
  | perWorkerDescriptorWrite
  | manualTrigger
deriving DecidableEq, Repr

/-- The exported entry points of `index.ts` in source order with their
trigger kind: `controllerCore` (pubsub topic onPublish, the periodic tick),
`controller` (HTTPS, the manual trigger), `worker` (firestore onWrite under
the workers collection) and `onWrite` (firestore onWrite of a shard
document). -/
def exportedEntryPoints : List (String × EntryPointKind) :=
  [("controllerCore", EntryPointKind.periodicTick),
   ("controller", EntryPointKind.manualTrigger),
   ("worker", EntryPointKind.perWorkerDescriptorWrite),
   ("onWrite", EntryPointKind.perShardWrite)]

/-- Strict lexicographic order on character lists, the order of the shard
document keys.  Written by structural recursion so that concrete instances
reduce inside the kernel. -/
def keyLtChars : List Char → List Char → Bool
  | [], [] => false
  | [], _ :: _ => true
  | _ :: _, [] => false
  | a :: as, b :: bs => if a < b then true else if b < a then false else keyLtChars as bs

/-- Strict lexicographic order on shard keys. -/
def keyLt (a b : String) : Bool := keyLtChars a.data b.data

/-- Reflexive lexicographic order on shard keys. -/
def keyLe (a b : String) : Bool := keyLt a b || a == b

/-- Membership of a shard key in a slice `[start, end)`, where an empty
`end` bound means unbounded above.  With both bounds empty every key is a
member, matching the full-range queries issued by `index.ts`. -/
def inSlice (range : Slice) (key : String) : Bool :=
  keyLe range.start key && (range.«end» == "" || keyLt key range.«end»)

/-- Sum of the deltas of a list of shard records. -/
def shardSum (l : List Shard) : Int :=
  (l.map Shard.delta).sum

/-- The batch a single Aggregator invocation reads: up to `limit` shard
records of the range, ordered by key ascending — the range query of
section 4.1. -/
def selectBatch (s : CounterState) (range : Slice) (limit : Nat) : List Shard :=
  (List.insertionSort (fun a b : Shard => keyLe a.key b.key = true)
      (s.shards.filter (fun x => inSlice range x.key))).take limit

/-- Modelled from the spec: the Aggregator of section 4.1, whose
implementation lives in the controller module that is not part of the
available source.  It queries up to `limit` shard records of the range
ordered by key ascending; on an empty batch it returns `DRAINED` and changes
nothing; otherwise, in one transaction, it sums the batch deltas, applies
the sum as an atomic increment to the total, bumps the historical consumed
count and deletes every consumed record, returning `TOO_MANY_SHARDS` when
the batch was full and `AGGREGATED` otherwise, together with the consumed
count.  Transaction conflicts, and hence the `FAILURE` status, cannot arise
in this sequential embedding. -/
def aggregate (s : CounterState) (range : Slice) (limit : Nat) :
    CounterState × AggregateStatus × Nat :=
  if (selectBatch s range limit).isEmpty then
    (s, AggregateStatus.DRAINED, 0)
  else
    ({ s with
        total := s.total + shardSum (selectBatch s range limit)
        shardsCount := s.shardsCount + (selectBatch s range limit).length
        shards := s.shards.filter
          (fun x => !decide (x.key ∈ (selectBatch s range limit).map Shard.key)) },
     if (selectBatch s range limit).length = limit then AggregateStatus.TOO_MANY_SHARDS
     else AggregateStatus.AGGREGATED,
     (selectBatch s range limit).length)

/-- Modelled from the spec: one event of the histories quantified over in
section 8.  A `write` is an external writer creating a fresh shard record; an
`aggregatePass` is one invocation of the Aggregator over some range with
some limit, which covers both the direct controller path and every pass a
partitioned worker makes over its own slice. -/
inductive Step where
  | write (key : String) (delta : Int)
  | aggregatePass (range : Slice) (limit : Nat)
deriving DecidableEq, Repr

/-- Effect of one step on the counter state. -/
def applyStep (s : CounterState) : Step → CounterState
  | Step.write key delta => { s with shards := s.shards ++ [⟨key, delta⟩] }
  | Step.aggregatePass range limit => (aggregate s range limit).1

/-- Run a history of steps from a starting state. -/
def runTrace (s : CounterState) (tr : List Step) : CounterState :=
  tr.foldl applyStep s

/-- The document keys of the shards written along a history. -/
def writeKeys : List Step → List String
  | [] => []
  | Step.write key _ :: tr => key :: writeKeys tr
  | Step.aggregatePass _ _ :: tr => writeKeys tr

/-- The exact sum of every shard delta ever written along a history. -/
def writtenSum : List Step → Int
  | [] => 0
  | Step.write _ delta :: tr => delta + writtenSum tr
  | Step.aggregatePass _ _ :: tr => writtenSum tr

/-- Modelled from the spec: the bounded aggregation loop of a worker run,
section 4.3, from the worker module that is not part of the available
source.  The wall-clock budget becomes a pass budget: the loop keeps
invoking the Aggregator on the given slice, accumulating the consumed
counts, and stops when the range reports `DRAINED` or the budget is
exhausted. -/
def workerRunLoop (budget : Nat) (s : CounterState) (slice : Slice)
    (limit : Nat) (processed : Nat) : CounterState × Nat :=
  match budget with
  | 0 => (s, processed)
  | b + 1 =>
    match aggregate s slice limit with
    | (s1, AggregateStatus.DRAINED, _) => (s1, processed)
    | (s1, _, consumed) => workerRunLoop b s1 slice limit (processed + consumed)

/-- Modelled from the spec: `ShardedCounterWorker.run` of section 4.3, from
the worker module that is not part of the available source.  The run
re-reads its own descriptor (the `descriptor` argument, `none` when the
document was deleted between trigger and read); a missing descriptor or a
set desired-stop flag makes it exit without any action.  Otherwise it runs
the aggregation loop over its own slice and writes back a fresh heartbeat
and the processed count to its descriptor document `docId`. -/
def workerRun (docId : String) (descriptor : Option WorkerDescriptor)
    (budget : Nat) (limit : Nat) (now : Nat) (s : CounterState) : CounterState :=
  match descriptor with
  | none => s
  | some d =>
    if d.stop then s
    else
      let (s1, processed) := workerRunLoop budget s d.slice limit 0
      { s1 with
          workers := s1.workers.map (fun p =>
            if p.1 = docId then
              (docId, { d with timestamp := now, stats := processed })
            else p) }

/-- A small concrete history used to instantiate the conservation law:
writes interleaved with a full-range pass, a deliberately undersized pass
(limit 1, forcing a full batch) and a final draining pass. -/
def demoTrace : List Step :=
  [Step.write "a" 2, Step.write "b" 3, Step.aggregatePass ⟨"", ""⟩ 200,
   Step.write "c" (-1), Step.aggregatePass ⟨"", ""⟩ 1,
   Step.aggregatePass ⟨"", ""⟩ 200]

/-- A concrete counter state whose only shard lies outside the slice
`["a", "b")`, used to instantiate the drained-range idempotence. -/
def demoDrainedState : CounterState :=
  { total := 9, shardsCount := 1, shards := [⟨"z", 7⟩], workers := [] }

/-! Helper lemmas about shard sums, batch selection and the Aggregator. -/

theorem shardSum_append (l₁ l₂ : List Shard) :
    shardSum (l₁ ++ l₂) = shardSum l₁ + shardSum l₂ := by
  simp [shardSum]

theorem shardSum_perm {l₁ l₂ : List Shard} (h : List.Perm l₁ l₂) :
    shardSum l₁ = shardSum l₂ :=
  (h.map Shard.delta).sum_eq

theorem shardSum_filter_mem_partition (l batch : List Shard) :
    shardSum (l.filter (fun x => decide (x.key ∈ batch.map Shard.key))) +
      shardSum (l.filter (fun x => !decide (x.key ∈ batch.map Shard.key))) =
      shardSum l := by
  rw [← shardSum_append]
  exact shardSum_perm
    (List.filter_append_perm (fun x => decide (x.key ∈ batch.map Shard.key)) l)

theorem selectBatch_subset (s : CounterState) (r : Slice) (n : Nat) :
    selectBatch s r n ⊆ s.shards := by
  intro x hx
  simp only [selectBatch] at hx
  have h1 : x ∈ List.insertionSort (fun a b : Shard => keyLe a.key b.key = true)
      (s.shards.filter (fun y => inSlice r y.key)) :=
    (List.take_sublist n _).subset hx
  have h2 : x ∈ s.shards.filter (fun y => inSlice r y.key) :=
    (List.perm_insertionSort _ _).subset h1
  exact (List.filter_sublist _).subset h2

theorem selectBatch_keys_nodup (s : CounterState) (r : Slice) (n : Nat)
    (hkeys : (s.shards.map Shard.key).Nodup) :
    ((selectBatch s r n).map Shard.key).Nodup := by
  have hfn : ((s.shards.filter (fun y => inSlice r y.key)).map Shard.key).Nodup :=
    hkeys.sublist ((List.filter_sublist _).map _)
  have hsn : ((List.insertionSort (fun a b : Shard => keyLe a.key b.key = true)
      (s.shards.filter (fun y => inSlice r y.key))).map Shard.key).Nodup :=
    (((List.perm_insertionSort _ _).map Shard.key).nodup_iff).mpr hfn
  exact hsn.sublist ((List.take_sublist n _).map _)

theorem filter_keys_perm (l batch : List Shard)
    (hkeys : (l.map Shard.key).Nodup) (hbk : (batch.map Shard.key).Nodup)
    (hsub : batch ⊆ l) :
    List.Perm (l.filter (fun x => decide (x.key ∈ batch.map Shard.key))) batch := by
  have hl : l.Nodup := hkeys.of_map
  have hb : batch.Nodup := hbk.of_map
  apply List.perm_of_nodup_nodup_toFinset_eq (hl.filter _) hb
  ext x
  simp only [List.mem_toFinset, List.mem_filter, decide_eq_true_eq]
  constructor
  · rintro ⟨hxl, hxk⟩
    obtain ⟨b, hbmem, hbkey⟩ := List.mem_map.mp hxk
    have hx : x = b := List.inj_on_of_nodup_map hkeys hxl (hsub hbmem) hbkey.symm
    rw [hx]
    exact hbmem
  · intro hxb
    exact ⟨hsub hxb, List.mem_map.mpr ⟨x, hxb, rfl⟩⟩

theorem aggregate_conserves (s : CounterState) (r : Slice) (n : Nat)
    (hkeys : (s.shards.map Shard.key).Nodup) :
    (aggregate s r n).1.total + shardSum (aggregate s r n).1.shards
        = s.total + shardSum s.shards ∧
    List.Sublist ((aggregate s r n).1.shards.map Shard.key)
      (s.shards.map Shard.key) := by
  by_cases hbe : (selectBatch s r n).isEmpty
  · unfold aggregate
    rw [if_pos hbe]
    exact ⟨rfl, List.Sublist.refl _⟩
  · unfold aggregate
    rw [if_neg hbe]
    dsimp only
    refine ⟨?_, (List.filter_sublist _).map _⟩
    have hperm := filter_keys_perm s.shards (selectBatch s r n) hkeys
      (selectBatch_keys_nodup s r n hkeys) (selectBatch_subset s r n)
    have hsum : shardSum (s.shards.filter
        (fun x => decide (x.key ∈ (selectBatch s r n).map Shard.key)))
        = shardSum (selectBatch s r n) := shardSum_perm hperm
    have hpart := shardSum_filter_mem_partition s.shards (selectBatch s r n)
    linarith [hpart, hsum]

theorem runTrace_conserves (tr : List Step) (s : CounterState)
    (h : (s.shards.map Shard.key ++ writeKeys tr).Nodup) :
    (runTrace s tr).total + shardSum (runTrace s tr).shards
      = s.total + shardSum s.shards + writtenSum tr := by
  induction tr generalizing s with
  | nil => simp [runTrace, writtenSum, shardSum]
  | cons st tr ih =>
    have hstep : runTrace s (st :: tr) = runTrace (applyStep s st) tr := rfl
    cases st with
    | write k d =>
      have hkeys : ((applyStep s (Step.write k d)).shards.map Shard.key ++
          writeKeys tr).Nodup := by
        simp only [applyStep, List.map_append, writeKeys] at h ⊢
        rw [List.append_assoc]
        simpa using h
      have ihh := ih (applyStep s (Step.write k d)) hkeys
      rw [hstep, ihh]
      simp only [applyStep, writtenSum, shardSum_append]
      simp [shardSum]
      ring
    | aggregatePass r n =>
      simp only [writeKeys] at h
      have hk : (s.shards.map Shard.key).Nodup := (List.nodup_append.mp h).1
      have hagg := aggregate_conserves s r n hk
      have hkeys : ((applyStep s (Step.aggregatePass r n)).shards.map Shard.key ++
          writeKeys tr).Nodup := by
        simp only [applyStep]
        exact h.sublist (hagg.2.append (List.Sublist.refl _))
      have ihh := ih (applyStep s (Step.aggregatePass r n)) hkeys
      rw [hstep, ihh]
      simp only [applyStep, writtenSum]
      linarith [hagg.1]

/-! The claims. -/

/-- C1: For any sequence of shard writes (with pairwise distinct fresh keys)
interleaved arbitrarily with aggregation passes over arbitrary ranges and
limits — the direct path and every partitioned worker pass alike — once all
shards have been drained, the final aggregate total equals the exact sum of
all shard deltas ever written: no increment lost, none double-counted. -/
theorem conservation_law (tr : List Step)
    (hfresh : (writeKeys tr).Nodup)
    (hdrained : (runTrace emptyCounterState tr).shards = []) :
    (runTrace emptyCounterState tr).total = writtenSum tr := by
  have h := runTrace_conserves tr emptyCounterState
    (by simpa [emptyCounterState] using hfresh)
  rw [hdrained] at h
  simpa [emptyCounterState, shardSum] using h

/-- Witness for C1: a concrete history of three writes and three passes
(one of them with a full batch of size 1) drains the store and leaves
total 4 = 2 + 3 - 1. -/
theorem conservation_law_witness :
    (writeKeys demoTrace).Nodup ∧
    (runTrace emptyCounterState demoTrace).shards = [] ∧
    (runTrace emptyCounterState demoTrace).total = writtenSum demoTrace :=
  ⟨by decide, by decide, conservation_law demoTrace (by decide) (by decide)⟩

/-- C2: In the periodic-tick entry point, `rescheduleWorkers` is awaited
after `aggregateOnce` exactly when the returned status is
`WORKERS_RUNNING`, `TOO_MANY_SHARDS` or `FAILURE`; when the status is `OK`
no further action is taken in that invocation. -/
theorem controllerCore_reschedule_policy (p : String) (s : ControllerStatus) :
    (Call.rescheduleWorkers ∈ (controllerCoreHandler p s).1 ↔
      (s = ControllerStatus.WORKERS_RUNNING ∨ s = ControllerStatus.TOO_MANY_SHARDS ∨
        s = ControllerStatus.FAILURE)) ∧
    (Call.rescheduleWorkers ∈ (controllerCoreHandler p s).1 →
      (controllerCoreHandler p s).1 =
        [Call.newController p SHARDS_COLLECTION_ID, Call.aggregateOnce ⟨"", ""⟩ 200,
          Call.rescheduleWorkers]) ∧
    (s = ControllerStatus.OK →
      (controllerCoreHandler p s).1 =
        [Call.newController p SHARDS_COLLECTION_ID, Call.aggregateOnce ⟨"", ""⟩ 200]) := by
  cases s <;> simp [controllerCoreHandler]

/-- Witness for C2: on status `OK` the tick performs only the controller
construction and the single `aggregateOnce`. -/
theorem controllerCore_reschedule_policy_witness :
    (controllerCoreHandler "path" ControllerStatus.OK).1 =
      [Call.newController "path" SHARDS_COLLECTION_ID, Call.aggregateOnce ⟨"", ""⟩ 200] :=
  (controllerCore_reschedule_policy "path" ControllerStatus.OK).2.2 rfl

/-- C3: When the worker descriptor document no longer exists after the
write, the handler exits without performing any action and no worker run is
started; otherwise a worker for that descriptor is constructed and run.  In
addition (worker module modelled from the spec) a run that re-reads a
deleted descriptor, or one whose descriptor carries the desired-stop flag,
leaves the counter state untouched. -/
theorem worker_stop_guard (c : Change) (docId : String) (d : WorkerDescriptor)
    (budget limit now : Nat) (s : CounterState) :
    (c.after.«exists» = false →
      workerHandler c = [] ∧ ∀ i, Call.workerRun i ∉ workerHandler c) ∧
    (c.after.«exists» = true →
      workerHandler c = [Call.newWorker c.after.id SHARDS_COLLECTION_ID,
        Call.workerRun c.after.id]) ∧
    workerRun docId none budget limit now s = s ∧
    (d.stop = true → workerRun docId (some d) budget limit now s = s) := by
  refine ⟨fun h => ?_, fun h => ?_, rfl, fun h => ?_⟩
  · simp [workerHandler, h]
  · simp [workerHandler, h]
  · simp [workerRun, h]

/-- Witness for C3: a delete event (after-snapshot does not exist) produces
no calls, and a run on a stop-flagged descriptor changes nothing. -/
theorem worker_stop_guard_witness :
    workerHandler { before := ⟨true, "w", none⟩, after := ⟨false, "w", none⟩ } = [] ∧
    workerRun "w" (some { slice := ⟨"", ""⟩, timestamp := 0, stats := 0, stop := true })
      3 200 7 emptyCounterState = emptyCounterState :=
  ⟨((worker_stop_guard { before := ⟨true, "w", none⟩, after := ⟨false, "w", none⟩ }
      "w" { slice := ⟨"", ""⟩, timestamp := 0, stats := 0, stop := true } 3 200 7
      emptyCounterState).1 rfl).1,
   (worker_stop_guard { before := ⟨true, "w", none⟩, after := ⟨false, "w", none⟩ }
      "w" { slice := ⟨"", ""⟩, timestamp := 0, stats := 0, stop := true } 3 200 7
      emptyCounterState).2.2.2 rfl⟩

/-- C4: The manual trigger entry point mutates no counter state (total,
shards or worker descriptors): its only collaborator call is one publish of
the empty-JSON-object message to the messaging topic, and it responds with
success. -/
theorem manual_trigger_frame (c : CounterState) (p : Option PubSubClient)
    (t : String) (f : PubSubClient) :
    (controllerHandler c p t f).counter = c ∧
    (∃ client, (controllerHandler c p t f).calls = [Call.publish client t "\x7b\x7d"]) ∧
    (controllerHandler c p t f).response = { status := 200, body := "Ok" } := by
  cases p with
  | none => exact ⟨rfl, ⟨f, rfl⟩, rfl⟩
  | some cl => exact ⟨rfl, ⟨cl, rfl⟩, rfl⟩

/-- C5 counterexample: no exported entry point of `index.ts` is named
`workerTick`; the per-worker-descriptor-write entry point is exported as
`worker`. -/
theorem entry_point_names_counterexample :
    "workerTick" ∉ exportedEntryPoints.map Prod.fst := by decide

/-- C5 amended: the core exposes exactly four collaborator-facing entry
points — the periodic tick `controllerCore`, the per-shard-write `onWrite`,
the per-worker-descriptor-write `worker` and the manual trigger
`controller`. -/
theorem entry_point_names_amended :
    exportedEntryPoints.length = 4 ∧
    ("controllerCore", EntryPointKind.periodicTick) ∈ exportedEntryPoints ∧
    ("onWrite", EntryPointKind.perShardWrite) ∈ exportedEntryPoints ∧
    ("worker", EntryPointKind.perWorkerDescriptorWrite) ∈ exportedEntryPoints ∧
    ("controller", EntryPointKind.manualTrigger) ∈ exportedEntryPoints := by decide

/-- C6: Re-invoking the Aggregator on a range containing no remaining shard
records is idempotent: it returns status `DRAINED`, leaves the whole
counter state — total, shards and every worker descriptor — unchanged, and
a second invocation returns the very same result. -/
theorem aggregate_drained_idempotent (s : CounterState) (r : Slice) (n : Nat)
    (h : s.shards.filter (fun x => inSlice r x.key) = []) :
    (aggregate s r n).2.1 = AggregateStatus.DRAINED ∧
    (aggregate s r n).1 = s ∧
    aggregate (aggregate s r n).1 r n = aggregate s r n := by
  have hb : selectBatch s r n = [] := by
    rw [selectBatch, h]
    simp [List.insertionSort]
  have he : (selectBatch s r n).isEmpty = true := by rw [hb]; rfl
  have ha : aggregate s r n = (s, AggregateStatus.DRAINED, 0) := by
    unfold aggregate
    rw [if_pos he]
  exact ⟨by rw [ha], by rw [ha], by rw [ha]; exact ha⟩

/-- Witness for C6: a state whose only shard key "z" lies outside the
slice ["a", "b") is left untouched with status `DRAINED`. -/
theorem aggregate_drained_idempotent_witness :
    (demoDrainedState.shards.filter (fun x => inSlice ⟨"a", "b"⟩ x.key) = []) ∧
    (aggregate demoDrainedState ⟨"a", "b"⟩ 5).2.1 = AggregateStatus.DRAINED ∧
    (aggregate demoDrainedState ⟨"a", "b"⟩ 5).1 = demoDrainedState ∧
    aggregate (aggregate demoDrainedState ⟨"a", "b"⟩ 5).1 ⟨"a", "b"⟩ 5 =
      aggregate demoDrainedState ⟨"a", "b"⟩ 5 :=
  ⟨by decide, aggregate_drained_idempotent demoDrainedState ⟨"a", "b"⟩ 5 (by decide)⟩

/-- C8: The per-shard-write handler ignores its event arguments: any two
write events (create, update or delete, any contents, any path parameters)
produce the identical action, namely constructing a controller on the
internal state document and calling `aggregateContinuously` over the full
key range with limit 200 and budget 60000. -/
theorem onWrite_event_independent (p : String) (c₁ c₂ : ShardChange)
    (x₁ x₂ : EventContext) :
    onWriteHandler p c₁ x₁ = onWriteHandler p c₂ x₂ ∧
    onWriteHandler p c₁ x₁ =
      [Call.newController p SHARDS_COLLECTION_ID,
        Call.aggregateContinuously ⟨"", ""⟩ 200 60000] :=
  ⟨rfl, rfl⟩

/-- C9: Every invocation of the periodic-tick entry point calls
`aggregateOnce` exactly once, always over the full key range with limit
200, calls `rescheduleWorkers` at most once, and resolves to `null`
whatever status `aggregateOnce` returned. -/
theorem controllerCore_call_shape (p : String) (s : ControllerStatus) :
    ((controllerCoreHandler p s).1.filter (fun c => match c with
        | Call.aggregateOnce _ _ => true
        | _ => false) = [Call.aggregateOnce ⟨"", ""⟩ 200]) ∧
    ((controllerCoreHandler p s).1.filter (fun c => match c with
        | Call.rescheduleWorkers => true
        | _ => false)).length ≤ 1 ∧
    (∀ r l, Call.aggregateOnce r l ∈ (controllerCoreHandler p s).1 →
      r = ⟨"", ""⟩ ∧ l = 200) ∧
    (controllerCoreHandler p s).2 = none := by
  cases s <;> simp [controllerCoreHandler]

/-- Witness for C9: at status `TOO_MANY_SHARDS` the single `aggregateOnce`
call in the trace has the full range and limit 200. -/
theorem controllerCore_call_shape_witness :
    Call.aggregateOnce ⟨"", ""⟩ 200 ∈
      (controllerCoreHandler "path" ControllerStatus.TOO_MANY_SHARDS).1 ∧
    (⟨"", ""⟩ : Slice) = ⟨"", ""⟩ ∧ (200 : Nat) = 200 :=
  ⟨by decide,
   (controllerCore_call_shape "path" ControllerStatus.TOO_MANY_SHARDS).2.2.1
     ⟨"", ""⟩ 200 (by decide)⟩

/-- C10: The module-level messaging client is created on the first request
only when still unset, is non-null after any completed request, is reused
unchanged by every later request, and every request publishes the
empty-JSON-object message to the topic named by the extension instance id
and responds 200 "Ok". -/
theorem pubsub_lazy_singleton (c : CounterState) (p : Option PubSubClient)
    (t : String) (f : PubSubClient) :
    ((controllerHandler c p t f).pubsub.isSome = true) ∧
    (p = none → (controllerHandler c p t f).pubsub = some f ∧
      (controllerHandler c p t f).calls = [Call.publish f t "\x7b\x7d"]) ∧
    (∀ cl, p = some cl → (controllerHandler c p t f).pubsub = some cl ∧
      (controllerHandler c p t f).calls = [Call.publish cl t "\x7b\x7d"]) ∧
    (∀ t2 f2, (controllerHandler (controllerHandler c p t f).counter
        (controllerHandler c p t f).pubsub t2 f2).pubsub =
      (controllerHandler c p t f).pubsub) ∧
    (controllerHandler c p t f).response = { status := 200, body := "Ok" } := by
  cases p <;> simp [controllerHandler]

/-- Witness for C10: a request arriving with an already-present client of
id 5 reuses exactly that client for its publish. -/
theorem pubsub_lazy_singleton_witness :
    (controllerHandler emptyCounterState (some (PubSubClient.mk 5)) "topic"
        (PubSubClient.mk 9)).pubsub = some (PubSubClient.mk 5) ∧
    (controllerHandler emptyCounterState (some (PubSubClient.mk 5)) "topic"
        (PubSubClient.mk 9)).calls =
      [Call.publish (PubSubClient.mk 5) "topic" "\x7b\x7d"] :=
  (pubsub_lazy_singleton emptyCounterState (some (PubSubClient.mk 5)) "topic"
    (PubSubClient.mk 9)).2.2.1 (PubSubClient.mk 5) rfl

end FirestoreCounter
